import Mathlib

/-!
Verification development for the AgriUnity client (a browser single-page
application).  The definitions below are a shallow embedding of the
JavaScript source files: `frontend/src/api.js`, `frontend/src/store.js`,
`frontend/src/GroupRoom.jsx`, `frontend/src/FarmerDashboard.jsx`,
`WorkflowEngine.js` and `components/UnifiedChat/AIAgentSystem.js`.
JavaScript numbers are modelled as `Int`/`Rat`, nullable values as
`Option`, parsed JSON bodies as an inductive `Json` type, and promise
outcomes as an explicit result type.
-/

namespace AgriUnity

/-- Model of a parsed JSON value (the result of `JSON.parse` /
`response.json()`).  Objects keep their fields in insertion order, which
is the order `Object.values` enumerates non-integer string keys. -/
inductive Json where
  | null : Json
  | bool : Bool → Json
  | num : Int → Json
  | str : String → Json
  | arr : List Json → Json
  | obj : List (String × Json) → Json

namespace Api

/-- Model of `Object.values(x)`.  Returns `none` when the call throws a
`TypeError` (argument `null`).  For an object it yields the field values
in order, for an array its elements, for a string its one-character
strings, and for numbers and booleans the empty list. -/
def jsValues : Json → Option (List Json)
  | .null => none
  | .bool _ => some []
  | .num _ => some []
  | .str s => some (s.data.map fun c => Json.str (String.singleton c))
  | .arr xs => some xs
  | .obj fs => some (fs.map Prod.snd)

/-- Model of `Array.prototype.flat()` (depth 1): elements that are arrays
are spliced in, every other element is kept as is. -/
def jsFlat1 : List Json → List Json
  | [] => []
  | .arr xs :: rest => xs ++ jsFlat1 rest
  | v :: rest => v :: jsFlat1 rest

mutual
/-- String conversion an element undergoes inside
`Array.prototype.join`: `null` becomes the empty string, strings stay
themselves, numbers and booleans print, a nested array joins its own
elements with commas, and plain objects print as `[object Object]`. -/
def joinElemStr : Json → String
  | .null => ""
  | .bool b => cond b "true" "false"
  | .num n => toString n
  | .str s => s
  | .arr xs => joinElemList xs
  | .obj _ => "[object Object]"

/-- Comma-joined rendering of a list of JSON values, as produced by
`Array.prototype.toString` on a nested array. -/
def joinElemList : List Json → String
  | [] => ""
  | [x] => joinElemStr x
  | x :: y :: rest => joinElemStr x ++ "," ++ joinElemList (y :: rest)
end

/-- Model of the error-message computation in `api.js`:
`Object.values(errorData).flat().join(' ') || 'An API error occurred.'`.
Returns `none` when `Object.values` throws (body parsed to `null`), in
which case `authFetch` rejects with that `TypeError` instead of an
`Error` carrying a message. -/
def errorMessage (errorData : Json) : Option String :=
  (jsValues errorData).map fun vs =>
    let s := String.intercalate " " ((jsFlat1 vs).map joinElemStr)
    if s = "" then "An API error occurred." else s

/-- An HTTP response as `authFetch` observes it: the status code and the
outcome of attempting to parse the body as JSON (`none` when the body is
not valid JSON). -/
structure HttpResponse where
  status : Nat
  jsonBody : Option Json

/-- Model of `response.ok`: status in the inclusive range 200–299. -/
def respOk (r : HttpResponse) : Bool :=
  decide (200 ≤ r.status) && decide (r.status ≤ 299)

/-- Outcome of the `authFetch` promise: it resolves with a value (`none`
models resolving with JavaScript `null`), rejects with an `Error`
carrying a message, or rejects with a non-`Error` exception (a
`TypeError` or the `SyntaxError` of a failed `response.json()`). -/
inductive FetchResult where
  | resolved : Option Json → FetchResult
  | rejectedError : String → FetchResult
  | rejectedOther : FetchResult

/-- Response handling of `authFetch` in `api.js`: on a non-2xx response
it throws, using the flattened JSON error body when the body parses and
the generic status message otherwise; on a 204 it resolves to `null`
without touching the body; on any other 2xx it resolves to the parsed
JSON body (rejecting when the body is not JSON). -/
def authFetch (r : HttpResponse) : FetchResult :=
  if respOk r = false then
    match r.jsonBody with
    | none => .rejectedError ("HTTP error! status: " ++ toString r.status)
    | some errorData =>
      match errorMessage errorData with
      | some msg => .rejectedError msg
      | none => .rejectedOther
  else if r.status = 204 then
    .resolved none
  else
    match r.jsonBody with
    | some j => .resolved (some j)
    | none => .rejectedOther

/-- Helper describing the error bodies the backend contract promises: a
JSON object mapping field names to arrays of message strings. -/
def encodeErrorBody (fields : List (String × List String)) : Json :=
  Json.obj (fields.map fun p => (p.1, Json.arr (p.2.map Json.str)))

/-- The flattening the client applies to such a body: all the arrays'
elements in order, joined by single spaces. -/
def flattenMessages (fields : List (String × List String)) : String :=
  String.intercalate " " (fields.map Prod.snd).flatten

end Api

namespace Api

/-- Lookup in a header object modelled as an insertion-ordered
association list; a later entry for the same key overrides an earlier
one, matching JavaScript object-literal and spread semantics. -/
def headersGet (hs : List (String × String)) (k : String) : Option String :=
  ((hs.filter fun p => p.1 == k).getLast?).map Prod.snd

/-- The caller-controlled parts of `options` that the header computation
in `authFetch` inspects: whether `options.body` is a `FormData` instance
and the caller-supplied `options.headers` entries. -/
structure FetchOptions where
  isFormDataBody : Bool
  headers : List (String × String)

/-- The `defaultHeaders` object of `authFetch`: no `Content-Type` when
the body is `FormData`, `application/json` otherwise, and always the
`Authorization` token header. -/
def defaultHeaders (isFormData : Bool) (token : String) : List (String × String) :=
  (if isFormData then [] else [("Content-Type", "application/json")])
    ++ [("Authorization", "Token " ++ token)]

/-- The headers of the issued request: the spread
of `defaultHeaders` first and then `options.headers`, so
caller-supplied entries override the defaults. -/
def configHeaders (token : String) (opts : FetchOptions) : List (String × String) :=
  defaultHeaders opts.isFormDataBody token ++ opts.headers

end Api

namespace Store

/-- The session state held by `useUserStore` in `store.js`: exactly a
`user` and a `token`, both `null` initially. -/
structure UserSession (U T : Type) where
  user : Option U
  token : Option T
  deriving DecidableEq

/-- The store's initial state: both fields `null`. -/
def initialSession (U T : Type) : UserSession U T :=
  { user := none, token := none }

/-- The `setUser` action: `set(\x7b user, token \x7d)` replaces both
fields with the given pair. -/
def setUser {U T : Type} (user : U) (token : T) (_s : UserSession U T) :
    UserSession U T :=
  { user := some user, token := some token }

/-- The `logout` action: `set(\x7b user: null, token: null \x7d)`. -/
def logout {U T : Type} (_s : UserSession U T) : UserSession U T :=
  { user := none, token := none }

end Store

namespace Farmer

/-- The state of the listing form in `FarmerDashboard.jsx`: the three
controlled inputs. -/
structure ListingForm where
  selectedCrop : String
  quantity : String
  selectedGrade : String
  deriving DecidableEq

/-- Browser constraint validation for the listing form: all three
controls carry the `required` attribute and their empty placeholder
options have value `""`, so submission is blocked while any of them is
the empty string. -/
def listingFormRequiredOk (f : ListingForm) : Bool :=
  !(f.selectedCrop == "") && !(f.quantity == "") && !(f.selectedGrade == "")

/-- Model of `parseInt(s, 10)`: skip leading whitespace, read an
optional sign and then a maximal run of decimal digits; `none` models
`NaN` (no digits). -/
def jsParseInt10 (s : String) : Option Int :=
  let t := s.data.dropWhile Char.isWhitespace
  let signed : Bool × List Char :=
    match t with
    | '-' :: rest => (true, rest)
    | '+' :: rest => (false, rest)
    | rest => (false, rest)
  let digits := signed.2.takeWhile Char.isDigit
  if digits.isEmpty then none
  else
    let v : Int := digits.foldl (fun acc c => acc * 10 + (c.toNat - '0'.toNat)) 0
    some (if signed.1 then -v else v)

/-- A network request as observed at the `authFetch` call site of
`handleSubmitListing`: the multipart form fields appended to the
`FormData` body. -/
structure ListingRequest where
  url : String
  method : String
  crop_name : String
  quantity_kg : Option Int
  grade : String

/-- Submission of the listing form: browser `required` validation runs
first and, only when it passes, `handleSubmitListing` issues the POST
with the three form fields.  `none` means no network call is made. -/
def submitListing (f : ListingForm) : Option ListingRequest :=
  if listingFormRequiredOk f then
    some { url := "/api/products/list-product/"
         , method := "POST"
         , crop_name := f.selectedCrop
         , quantity_kg := jsParseInt10 f.quantity
         , grade := f.selectedGrade }
  else
    none

end Farmer

namespace GroupRoom

/-- Model of the JavaScript `x || d` default for strings: the empty
string is falsy, so it also falls back to the default. -/
def jsOrStr (x : Option String) (d : String) : String :=
  match x with
  | none => d
  | some s => if s = "" then d else s

/-- Model of `x || false` for an optional boolean field. -/
def jsOrBool (x : Option Bool) : Bool :=
  match x with
  | none => false
  | some b => b

/-- A chat message as returned by the group chat endpoint, restricted to
the fields `fetchAll` reads.  Timestamps are modelled as integers
(epoch milliseconds, the value `Date` coercion produces). -/
structure ChatMessage where
  id : Int
  content : String
  sender_name : Option String
  is_ai_agent : Option Bool
  created_at : Int

/-- An entry of the flattened negotiation history, restricted to the
fields `fetchAll` reads. -/
structure HistoryMessage where
  id : Int
  content : String
  sender : String
  is_ai_agent : Option Bool
  timestamp : Int
  type : String

/-- A merged message as pushed onto `allMessages` in `fetchAll`. -/
structure MergedMessage where
  id : String
  content : String
  sender_name : String
  is_ai_agent : Bool
  timestamp : Int
  type : String

/-- Formatting of one chat message in `fetchAll`: prefixed id, sender
defaulted to `Unknown`, AI flag defaulted to false. -/
def formatChatMessage (m : ChatMessage) : MergedMessage :=
  { id := "chat_" ++ toString m.id
  , content := m.content
  , sender_name := jsOrStr m.sender_name "Unknown"
  , is_ai_agent := jsOrBool m.is_ai_agent
  , timestamp := m.created_at
  , type := "chat" }

/-- Formatting of one kept history entry in `fetchAll`: prefixed id and
the sender-name rewriting for the AI agent and the `buyer123` user. -/
def formatHistoryMessage (m : HistoryMessage) : MergedMessage :=
  { id := "history_" ++ toString m.id
  , content := m.content
  , sender_name :=
      if m.sender = "AI Agent" then "AI Agent"
      else if m.sender = "buyer123" then "You" else m.sender
  , is_ai_agent := jsOrBool m.is_ai_agent || decide (m.sender = "AI Agent")
  , timestamp := m.timestamp
  , type := "negotiation" }

/-- The filter `fetchAll` applies to history entries before merging. -/
def keepHistory (m : HistoryMessage) : Bool :=
  m.type == "negotiation_message" || m.type == "poll"

/-- The sort comparator of `fetchAll`, `(a, b) => timeA - timeB`,
after the monotone `Date` coercion of the timestamps. -/
def jsCompareMessages (a b : MergedMessage) : Int :=
  a.timestamp - b.timestamp

/-- The ordering the comparator induces: `a` may precede `b` exactly
when the comparator is non-positive. -/
def sortLe (a b : MergedMessage) : Prop :=
  jsCompareMessages a b ≤ 0

instance : DecidableRel sortLe := fun a b =>
  inferInstanceAs (Decidable (jsCompareMessages a b ≤ 0))

instance : IsTotal MergedMessage sortLe :=
  ⟨fun a b => by
    unfold sortLe jsCompareMessages
    omega⟩

instance : IsTrans MergedMessage sortLe :=
  ⟨fun a b c hab hbc => by
    unfold sortLe jsCompareMessages at *
    omega⟩

/-- The merged message list `fetchAll` builds: formatted chat messages,
then the formatted kept history entries, sorted by the timestamp
comparator. -/
def fetchAllMerge (chat : List ChatMessage) (hist : List HistoryMessage) :
    List MergedMessage :=
  List.insertionSort sortLe
    (chat.map formatChatMessage
      ++ (hist.filter keepHistory).map formatHistoryMessage)

end GroupRoom

namespace Workflow

/-- The fixed linear stage enum of `WorkflowEngine.js`. -/
inductive Stage where
  | NEGOTIATING
  | ACCEPTED
  | IN_TRANSIT
  | DELIVERED
  | COMPLETED
  deriving DecidableEq

/-- Position of a stage in the linear order, used to state that a
transition never skips a stage. -/
def stageIdx : Stage → Nat
  | .NEGOTIATING => 0
  | .ACCEPTED => 1
  | .IN_TRANSIT => 2
  | .DELIVERED => 3
  | .COMPLETED => 4

/-- The poll fields `WorkflowEngine` reads from `dealGroup.active_poll`:
the vote count used by `checkPollConsensus` and the expiry instant used
by `checkPollStatus` (modelled as epoch milliseconds, the value the
`Date` coercion produces; `none` models a missing or unparseable
`expires_at`, whose `NaN` comparisons are all false). -/
structure Poll where
  total_votes : Option ℚ
  expires_at : Option Int
  deriving DecidableEq

/-- The offer fields `WorkflowEngine` reads from
`dealGroup.current_offer`. -/
structure Offer where
  price_per_kg : Option ℚ
  deriving DecidableEq

/-- The deal-group fields the condition checks and auto-actions of
`WorkflowEngine` read or write.  `Option` models absent (`undefined` or
`null`) fields; JavaScript numbers are modelled as rationals. -/
structure DealGroup where
  active_poll : Option Poll
  members_count : Option ℚ
  target_price_per_kg : Option ℚ
  current_offer : Option Offer
  total_quantity_kg : Option ℚ
  confirmed_quantity_kg : Option ℚ
  escrow_status : Option String
  logistics_status : Option String
  assigned_hub : Option String
  collection_status : Option String
  shipment_status : Option String
  delivery_scheduled : Option Bool
  receipt_status : Option String
  payment_status : Option String
  deriving DecidableEq

/-- Model of the JavaScript `x || d` default for numeric fields: both a
missing field and `0` are falsy and fall back to the default. -/
def jsOrNum (x : Option ℚ) (d : ℚ) : ℚ :=
  match x with
  | none => d
  | some v => if v = 0 then d else v

/-- `checkPollConsensus`: false without an active poll; otherwise the
vote ratio `(poll.total_votes || 0) / (members_count || 1)` must reach
the 75 percent threshold. -/
def checkPollConsensus (g : DealGroup) : Bool :=
  match g.active_poll with
  | none => false
  | some poll =>
    let totalVotes := jsOrNum poll.total_votes 0
    let requiredVotes := jsOrNum g.members_count 1
    decide (totalVotes / requiredVotes ≥ 75 / 100)

/-- `checkPriceAgreement`: false when the target price or the offer
price is missing or zero (both are falsy); otherwise the relative
difference must be within 10 percent. -/
def checkPriceAgreement (g : DealGroup) : Bool :=
  match g.target_price_per_kg, g.current_offer.bind Offer.price_per_kg with
  | some t, some c =>
    if t = 0 then false
    else if c = 0 then false
    else decide (|c - t| / t ≤ 1 / 10)
  | _, _ => false

/-- `checkQuantityConfirmed`: false when `total_quantity_kg` is missing
(the comparison against `NaN` is false); otherwise the confirmed
quantity, defaulted to 0, must reach 90 percent of it. -/
def checkQuantityConfirmed (g : DealGroup) : Bool :=
  match g.total_quantity_kg with
  | none => false
  | some req => decide (jsOrNum g.confirmed_quantity_kg 0 ≥ req * (9 / 10))

/-- `checkEscrowConfirmed`. -/
def checkEscrowConfirmed (g : DealGroup) : Bool :=
  g.escrow_status == some "CONFIRMED"

/-- `checkLogisticsReady`. -/
def checkLogisticsReady (g : DealGroup) : Bool :=
  g.logistics_status == some "READY"

/-- `checkCollectionConfirmed`. -/
def checkCollectionConfirmed (g : DealGroup) : Bool :=
  g.collection_status == some "CONFIRMED"

/-- `checkShipmentConfirmed`. -/
def checkShipmentConfirmed (g : DealGroup) : Bool :=
  g.shipment_status == some "CONFIRMED"

/-- `checkDeliveryScheduled`: a strict `=== true` comparison. -/
def checkDeliveryScheduled (g : DealGroup) : Bool :=
  g.delivery_scheduled == some true

/-- `checkReceiptVerified`. -/
def checkReceiptVerified (g : DealGroup) : Bool :=
  g.receipt_status == some "VERIFIED"

/-- `checkPaymentCompleted`. -/
def checkPaymentCompleted (g : DealGroup) : Bool :=
  g.payment_status == some "COMPLETED"

/-- `checkEscrowCleared`. -/
def checkEscrowCleared (g : DealGroup) : Bool :=
  g.escrow_status == some "RELEASED"

/-- The `switch` inside `checkStageConditions` mapping a condition name
to its check; an unknown name (such as the listed but unimplemented
`receipt_ready`) falls through to `false`. -/
def evalCondition (g : DealGroup) (c : String) : Bool :=
  match c with
  | "poll_consensus" => checkPollConsensus g
  | "price_agreement" => checkPriceAgreement g
  | "quantity_confirmed" => checkQuantityConfirmed g
  | "escrow_confirmed" => checkEscrowConfirmed g
  | "logistics_ready" => checkLogisticsReady g
  | "collection_confirmed" => checkCollectionConfirmed g
  | "shipment_confirmed" => checkShipmentConfirmed g
  | "delivery_scheduled" => checkDeliveryScheduled g
  | "receipt_verified" => checkReceiptVerified g
  | "payment_completed" => checkPaymentCompleted g
  | "escrow_cleared" => checkEscrowCleared g
  | _ => false

/-- `checkStageConditions`: trivially true for an empty list, otherwise
every listed condition must evaluate to `true`. -/
def checkStageConditions (g : DealGroup) (conditions : List String) : Bool :=
  if conditions.isEmpty then true
  else (conditions.map (evalCondition g)).all fun r => r == true

/-- One per-stage entry of the `automationRules` table. -/
structure StageRule where
  autoActions : List String
  triggers : List String
  nextStage : Stage
  conditions : List String

/-- The `automationRules` table of `initializeAutomationRules`; the
terminal `COMPLETED` stage has no entry. -/
def automationRules : Stage → Option StageRule
  | .NEGOTIATING => some
      { autoActions := ["check_poll_status", "suggest_counter_offers", "market_analysis"]
      , triggers := ["poll_expired", "consensus_reached", "deadline_approaching"]
      , nextStage := .ACCEPTED
      , conditions := ["poll_consensus", "price_agreement", "quantity_confirmed"] }
  | .ACCEPTED => some
      { autoActions := ["assign_logistics_hub", "create_escrow_contract", "notify_buyer"]
      , triggers := ["escrow_deposited", "hub_assigned", "collection_scheduled"]
      , nextStage := .IN_TRANSIT
      , conditions := ["escrow_confirmed", "logistics_ready", "collection_confirmed"] }
  | .IN_TRANSIT => some
      { autoActions := ["track_shipment", "update_status", "coordinate_delivery"]
      , triggers := ["shipment_picked", "in_transit", "delivery_imminent"]
      , nextStage := .DELIVERED
      , conditions := ["shipment_confirmed", "delivery_scheduled", "receipt_ready"] }
  | .DELIVERED => some
      { autoActions := ["confirm_receipt", "process_payment", "release_escrow"]
      , triggers := ["receipt_confirmed", "payment_processed", "escrow_released"]
      , nextStage := .COMPLETED
      , conditions := ["receipt_verified", "payment_completed", "escrow_cleared"] }
  | .COMPLETED => none

/-- The part of `checkPollStatus` that can reach `progressToNextStage`:
with an active poll whose expiry lies strictly in the past
(`now > expiry`), `handlePollExpiry` runs and progresses exactly when
`checkPollConsensus` holds; without an active poll, with a missing
expiry (`NaN` comparisons), with an unexpired poll, or without
consensus, no progression happens (only pending actions are added). -/
def checkPollStatusProgresses (now : Int) (g : DealGroup) : Bool :=
  match g.active_poll with
  | none => false
  | some poll =>
    match poll.expires_at with
    | none => false
    | some expiry => decide (now > expiry) && checkPollConsensus g

/-- Whether executing the auto-actions of a stage synchronously reaches
a `progressToNextStage` call.  `check_poll_status` is the only
auto-action that can do so (via `handlePollExpiry`); every other action
either defers its effects behind `setTimeout`/`setInterval` or only adds
pending actions. -/
def autoActionsProgress (now : Int) (g : DealGroup) (actions : List String) : Bool :=
  actions.any fun a => a == "check_poll_status" && checkPollStatusProgresses now g

/-- The stage after the first `progressToNextStage` step (if any)
triggered synchronously by one `analyzeCurrentStage` call at time
`now`: with no rule for the current stage it returns immediately; with
a rule, if every condition passes, `progressToNextStage` moves
`currentStage` to the rule's `nextStage`; otherwise the auto-actions
run, and the `check_poll_status` action can itself progress to the same
`nextStage` through `handlePollExpiry` when the active poll has expired
with consensus; in every other case the stage is unchanged. -/
def analyzeStep (now : Int) (st : Stage) (g : DealGroup) : Stage :=
  match automationRules st with
  | none => st
  | some rules =>
    if checkStageConditions g rules.conditions then rules.nextStage
    else if autoActionsProgress now g rules.autoActions then rules.nextStage
    else st

/-- A pending action as pushed by `addPendingAction`; the runtime `id`,
wall-clock `timestamp` and the constant `status: 'pending'` field are
outside the model. -/
structure PendingAction where
  type : String
  data : Json
  priority : String
  message : String

/-- The in-memory engine state the auto-actions mutate. -/
structure Engine where
  currentStage : Stage
  dealGroup : DealGroup
  pendingActions : List PendingAction

/-- The `assignLogisticsHub` auto-action, as it completes after its
hardcoded 1500 ms delay: it sets `logistics_status` to `READY`, sets
`assigned_hub` to `Central Hub - Mumbai`, and appends a `HUB_ASSIGNED`
pending action with the hardcoded hub data. -/
def assignLogisticsHub (w : Engine) : Engine :=
  { w with
    dealGroup :=
      { w.dealGroup with
        logistics_status := some "READY"
      , assigned_hub := some "Central Hub - Mumbai" }
  , pendingActions := w.pendingActions ++
      [{ type := "HUB_ASSIGNED"
       , data := Json.obj
           [ ("hub", Json.str "Central Hub - Mumbai")
           , ("location", Json.str "Mumbai") ]
       , priority := "high"
       , message := "Logistics hub assigned: Central Hub - Mumbai" }] }

end Workflow

namespace AIAgent

/-- One entry of the `conversationContext` log of `AIAgentSystem`. -/
structure ContextEntry where
  type : String
  data : Json
  timestamp : String

/-- `addToContext`: push the new entry, then keep only the last 50
entries when the log exceeds 50 (`slice(-50)`). -/
def addToContext (ctx : List ContextEntry) (type : String) (data : Json)
    (timestamp : String) : List ContextEntry :=
  let pushed := ctx ++ [{ type := type, data := data, timestamp := timestamp }]
  if pushed.length > 50 then pushed.drop (pushed.length - 50) else pushed

/-- The reset of `conversationContext` (constructor and `clearContext`
both assign the empty array). -/
def clearContext : List ContextEntry := []

end AIAgent

/-! Helper lemmas shared by the claim theorems. -/

/-- Header lookup distributes over the spread of two header objects:
the later object wins on common keys. -/
lemma headersGet_append (a b : List (String × String)) (k : String) :
    Api.headersGet (a ++ b) k = (Api.headersGet b k).or (Api.headersGet a k) := by
  unfold Api.headersGet
  rw [List.filter_append]
  rcases hb : b.filter (fun p => p.1 == k) with _ | ⟨x, xs⟩
  · rw [hb, List.append_nil]
    rfl
  · rw [hb, List.getLast?_append_cons]
    obtain ⟨v, hv⟩ : ∃ v, (x :: xs).getLast? = some v := by
      cases hgl : (x :: xs).getLast? with
      | none => exact absurd (List.getLast?_eq_none_iff.mp hgl) (by simp)
      | some v => exact ⟨v, rfl⟩
    rw [hv]
    rfl

/-- Flattening a JSON object of string arrays and stringifying the
elements recovers exactly the concatenated message strings. -/
lemma jsFlat1_encode (fields : List (String × List String)) :
    (Api.jsFlat1 (((fields.map fun p => (p.1, Json.arr (p.2.map Json.str))).map Prod.snd))).map
        Api.joinElemStr
      = (fields.map Prod.snd).flatten := by
  induction fields with
  | nil => rfl
  | cons p fs ih =>
    simp only [List.map_cons, List.flatten_cons]
    rw [show Api.jsFlat1
          (Json.arr (p.2.map Json.str)
            :: ((fs.map fun p => (p.1, Json.arr (p.2.map Json.str))).map Prod.snd))
        = p.2.map Json.str
            ++ Api.jsFlat1 ((fs.map fun p => (p.1, Json.arr (p.2.map Json.str))).map Prod.snd)
      from rfl]
    rw [List.map_append, ih, List.map_map]
    congr 1
    have hcomp : Api.joinElemStr ∘ Json.str = id := funext fun s => rfl
    rw [hcomp, List.map_id]

/-- The error message `authFetch` computes for a JSON object of
field-name → message-array entries: the space-joined flattening when it
is non-empty, the fallback text otherwise. -/
lemma errorMessage_encode (fields : List (String × List String)) :
    Api.errorMessage (Api.encodeErrorBody fields)
      = some (if Api.flattenMessages fields = "" then "An API error occurred."
              else Api.flattenMessages fields) := by
  unfold Api.errorMessage Api.encodeErrorBody Api.flattenMessages
  simp only [Api.jsValues, Option.map_some', jsFlat1_encode]

/-- `checkStageConditions` is the conjunction of the listed condition
checks. -/
lemma checkStageConditions_iff (g : Workflow.DealGroup) (conds : List String) :
    Workflow.checkStageConditions g conds = true ↔
      ∀ c ∈ conds, Workflow.evalCondition g c = true := by
  unfold Workflow.checkStageConditions
  cases conds with
  | nil =>
    exact ⟨fun _ c hc => absurd hc (List.not_mem_nil c), fun _ => rfl⟩
  | cons c cs =>
    rw [if_neg (by simp)]
    simp [List.all_eq_true]

/-- The synchronous auto-action progression happens exactly when
`check_poll_status` is among the stage's auto-actions and the expired
active poll has consensus. -/
lemma autoActionsProgress_iff (now : Int) (g : Workflow.DealGroup)
    (acts : List String) :
    Workflow.autoActionsProgress now g acts = true ↔
      "check_poll_status" ∈ acts ∧
      Workflow.checkPollStatusProgresses now g = true := by
  unfold Workflow.autoActionsProgress
  rw [List.any_eq_true]
  constructor
  · rintro ⟨a, ha, hpa⟩
    rw [Bool.and_eq_true, beq_iff_eq] at hpa
    exact ⟨hpa.1 ▸ ha, hpa.2⟩
  · rintro ⟨ha, hp⟩
    exact ⟨"check_poll_status", ha, by rw [Bool.and_eq_true, beq_iff_eq]; exact ⟨rfl, hp⟩⟩

/-- `analyzeStep` through the rule of the current stage. -/
lemma analyzeStep_eq (now : Int) (g : Workflow.DealGroup)
    (st : Workflow.Stage) (r : Workflow.StageRule)
    (hr : Workflow.automationRules st = some r) :
    Workflow.analyzeStep now st g =
      (if Workflow.checkStageConditions g r.conditions then r.nextStage
       else if Workflow.autoActionsProgress now g r.autoActions then r.nextStage
       else st) := by
  unfold Workflow.analyzeStep
  rw [hr]

/-- Every rule's `nextStage` sits at the immediate successor position in
the linear stage order. -/
lemma nextStage_succ (st : Workflow.Stage) (r : Workflow.StageRule)
    (hr : Workflow.automationRules st = some r) :
    Workflow.stageIdx r.nextStage = Workflow.stageIdx st + 1 := by
  cases st
  · cases Option.some.inj hr; rfl
  · cases Option.some.inj hr; rfl
  · cases Option.some.inj hr; rfl
  · cases Option.some.inj hr; rfl
  · exact Option.noConfusion hr

/-- A string starting with the `chat_` prefix never equals one starting
with the `history_` prefix. -/
lemma chat_id_ne_history_id (a b : String) :
    ("chat_" ++ a) ≠ ("history_" ++ b) := by
  intro h
  have hd : ("chat_" ++ a).data = ("history_" ++ b).data := congrArg String.data h
  rw [String.data_append, String.data_append] at hd
  rw [show ("chat_").data = ['c', 'h', 'a', 't', '_'] from rfl,
      show ("history_").data = ['h', 'i', 's', 't', 'o', 'r', 'y', '_'] from rfl] at hd
  simp only [List.cons_append] at hd
  injection hd with h1 _
  exact absurd h1 (by decide)

/-! The claim theorems. -/

/-- C4: for every user object `u` and token `t`, `setUser u t` leaves
the session store holding exactly `user = u` and `token = t`, and
`logout` sets both back to `null`; the store holds no other session
state (its state is exactly that pair). -/
theorem store_setUser_logout (U T : Type) (u : U) (t : T)
    (s : Store.UserSession U T) :
    Store.setUser u t s = { user := some u, token := some t } ∧
    Store.logout s = { user := none, token := none } :=
  ⟨rfl, rfl⟩

/-- C7: submitting the farmer listing form with an empty crop selection
is blocked by the `required` constraint validation, so no POST request
to the listing endpoint is issued. -/
theorem listing_submit_blocked_on_empty_crop (f : Farmer.ListingForm)
    (h : f.selectedCrop = "") :
    Farmer.submitListing f = none := by
  unfold Farmer.submitListing Farmer.listingFormRequiredOk
  simp [h]

/-- Witness for C7 at a concrete form state. -/
theorem listing_submit_blocked_on_empty_crop_witness :
    Farmer.submitListing
        { selectedCrop := "", quantity := "50", selectedGrade := "FAQ" } = none :=
  listing_submit_blocked_on_empty_crop
    { selectedCrop := "", quantity := "50", selectedGrade := "FAQ" } rfl

/-- C8: the `assign_logistics_hub` auto-action is hardcoded and
independent of the deal group: for every engine state it sets
`logistics_status` to `READY`, assigns `Central Hub - Mumbai`, and
appends the same `HUB_ASSIGNED` pending action with hub
`Central Hub - Mumbai` in location `Mumbai`. -/
theorem assignLogisticsHub_hardcoded (w : Workflow.Engine) :
    (Workflow.assignLogisticsHub w).dealGroup.logistics_status = some "READY" ∧
    (Workflow.assignLogisticsHub w).dealGroup.assigned_hub
        = some "Central Hub - Mumbai" ∧
    (Workflow.assignLogisticsHub w).pendingActions
        = w.pendingActions ++
            [{ type := "HUB_ASSIGNED"
             , data := Json.obj
                 [ ("hub", Json.str "Central Hub - Mumbai")
                 , ("location", Json.str "Mumbai") ]
             , priority := "high"
             , message := "Logistics hub assigned: Central Hub - Mumbai" }] ∧
    (Workflow.assignLogisticsHub w).currentStage = w.currentStage :=
  ⟨rfl, rfl, rfl, rfl⟩

/-- C9: after every `addToContext` call the conversation-context log
holds at most 50 entries and is exactly the suffix of most recently
added entries; the only other operations on the log reset it to the
empty list, which also satisfies the bound. -/
theorem addToContext_bounded (ctx : List AIAgent.ContextEntry)
    (ty : String) (data : Json) (ts : String) :
    (AIAgent.addToContext ctx ty data ts).length ≤ 50 ∧
    AIAgent.addToContext ctx ty data ts
      = (ctx ++ [({ type := ty, data := data, timestamp := ts }
            : AIAgent.ContextEntry)]).drop
          ((ctx ++ [({ type := ty, data := data, timestamp := ts }
            : AIAgent.ContextEntry)]).length - 50) ∧
    AIAgent.clearContext = ([] : List AIAgent.ContextEntry) ∧
    AIAgent.clearContext.length ≤ 50 := by
  refine ⟨?_, ?_, rfl, by simp [AIAgent.clearContext]⟩
  · simp only [AIAgent.addToContext]
    split
    · rename_i h
      simp only [List.length_drop]
      omega
    · rename_i h
      simp only [List.length_append, List.length_cons, List.length_nil] at h ⊢
      omega
  · simp only [AIAgent.addToContext]
    split
    · rfl
    · rename_i h
      have hz : (ctx ++ [({ type := ty, data := data, timestamp := ts }
            : AIAgent.ContextEntry)]).length - 50 = 0 := by
        simp only [List.length_append, List.length_cons, List.length_nil] at h ⊢
        omega
      rw [hz, List.drop_zero]

/-- C5: the default headers of `authFetch` always carry
`Authorization: Token <token>`; they omit `Content-Type` exactly when
the body is `FormData` and otherwise set it to `application/json`; the
issued request's headers are the defaults overridden by any
caller-supplied `options.headers` entries. -/
theorem authFetch_headers (token : String) (opts : Api.FetchOptions) :
    Api.headersGet (Api.defaultHeaders opts.isFormDataBody token) "Authorization"
        = some ("Token " ++ token) ∧
    (opts.isFormDataBody = true →
      Api.headersGet (Api.defaultHeaders opts.isFormDataBody token) "Content-Type"
        = none) ∧
    (opts.isFormDataBody = false →
      Api.headersGet (Api.defaultHeaders opts.isFormDataBody token) "Content-Type"
        = some "application/json") ∧
    (∀ k v, Api.headersGet opts.headers k = some v →
      Api.headersGet (Api.configHeaders token opts) k = some v) ∧
    (∀ k, Api.headersGet opts.headers k = none →
      Api.headersGet (Api.configHeaders token opts) k
        = Api.headersGet (Api.defaultHeaders opts.isFormDataBody token) k) := by
  obtain ⟨fd, hs⟩ := opts
  refine ⟨?_, ?_, ?_, ?_, ?_⟩
  · cases fd <;> rfl
  · intro h
    cases fd
    · exact Bool.noConfusion h
    · rfl
  · intro h
    cases fd
    · rfl
    · exact Bool.noConfusion h
  · intro k v hv
    show Api.headersGet (Api.defaultHeaders fd token ++ hs) k = some v
    rw [headersGet_append, hv]
    rfl
  · intro k hk
    show Api.headersGet (Api.defaultHeaders fd token ++ hs) k
        = Api.headersGet (Api.defaultHeaders fd token) k
    rw [headersGet_append, hk]
    rfl

/-- Witness for C5 at a concrete token and options value. -/
theorem authFetch_headers_witness :
    Api.headersGet (Api.defaultHeaders true "tok") "Content-Type" = none ∧
    Api.headersGet (Api.configHeaders "tok" ⟨true, [("X-Custom", "1")]⟩) "X-Custom"
        = some "1" :=
  ⟨(authFetch_headers "tok" ⟨true, [("X-Custom", "1")]⟩).2.1 rfl,
   (authFetch_headers "tok" ⟨true, [("X-Custom", "1")]⟩).2.2.2.1 "X-Custom" "1" rfl⟩

/-- C6: on a successful 204 response `authFetch` resolves to `null`
regardless of the body (no JSON parsing is attempted); on every other
successful response it resolves to the parsed JSON body. -/
theorem authFetch_success_resolution (r : Api.HttpResponse)
    (h : Api.respOk r = true) :
    (r.status = 204 → Api.authFetch r = Api.FetchResult.resolved none) ∧
    (r.status ≠ 204 → ∀ j, r.jsonBody = some j →
      Api.authFetch r = Api.FetchResult.resolved (some j)) := by
  constructor
  · intro h204
    unfold Api.authFetch
    simp [h, h204]
  · intro h204 j hj
    unfold Api.authFetch
    simp [h, h204, hj]

/-- Witness for C6: a bodiless 204 resolves to `null`, a 200 with a
JSON body resolves to that body. -/
theorem authFetch_success_resolution_witness :
    Api.authFetch ⟨204, none⟩ = Api.FetchResult.resolved none ∧
    Api.authFetch ⟨200, some (Json.num 1)⟩
        = Api.FetchResult.resolved (some (Json.num 1)) :=
  ⟨(authFetch_success_resolution ⟨204, none⟩ rfl).1 rfl,
   (authFetch_success_resolution ⟨200, some (Json.num 1)⟩ rfl).2 (by decide)
     (Json.num 1) rfl⟩

/-- C1 counterexample: on a 400 response whose body is the JSON object
with the single field `field` mapped to an empty array — an object
mapping field names to arrays of message strings — the error message is
the fallback text, not the empty flattened join the claim predicts. -/
theorem authFetch_empty_flatten_counterexample :
    Api.authFetch ⟨400, some (Json.obj [("field", Json.arr [])])⟩
        = Api.FetchResult.rejectedError "An API error occurred." ∧
    Api.FetchResult.rejectedError "An API error occurred."
        ≠ Api.FetchResult.rejectedError (String.intercalate " " ([] : List String)) := by
  constructor
  · rfl
  · intro h
    exact absurd (Api.FetchResult.rejectedError.inj h) (by decide)

/-- C1 (amended): on a non-2xx response whose body parses as a JSON
object mapping field names to arrays of message strings, `authFetch`
rejects with the arrays' elements flattened in order and joined by
single spaces — unless that join is the empty string, in which case the
message is the fallback `An API error occurred.`; on a non-2xx response
whose body does not parse as JSON it rejects with the generic
`HTTP error! status: <status>` message. -/
theorem authFetch_non2xx_error_message (status : Nat)
    (fields : List (String × List String)) (body : Option Json)
    (h : Api.respOk ⟨status, body⟩ = false) :
    (body = some (Api.encodeErrorBody fields) →
      Api.authFetch ⟨status, body⟩
        = Api.FetchResult.rejectedError
            (if Api.flattenMessages fields = "" then "An API error occurred."
             else Api.flattenMessages fields)) ∧
    (body = none →
      Api.authFetch ⟨status, body⟩
        = Api.FetchResult.rejectedError ("HTTP error! status: " ++ toString status)) := by
  constructor
  · intro hb
    subst hb
    unfold Api.authFetch
    simp [h, errorMessage_encode]
  · intro hb
    subst hb
    unfold Api.authFetch
    simp [h]

/-- Witness for C1 at the spec's own example body. -/
theorem authFetch_non2xx_error_message_witness :
    Api.authFetch ⟨400, some (Api.encodeErrorBody [("field", ["msg1", "msg2"])])⟩
        = Api.FetchResult.rejectedError "msg1 msg2" := by
  have h := (authFetch_non2xx_error_message 400 [("field", ["msg1", "msg2"])]
      (some (Api.encodeErrorBody [("field", ["msg1", "msg2"])])) rfl).1 rfl
  exact h

/-- C10: `authFetch` never resolves on a non-2xx response, and in the
edge case where the error body is a JSON object of message-string
arrays whose flattened join is empty, the thrown error carries the
fallback message `An API error occurred.`. -/
theorem authFetch_non2xx_always_rejects (r : Api.HttpResponse)
    (h : Api.respOk r = false) :
    (∀ v, Api.authFetch r ≠ Api.FetchResult.resolved v) ∧
    (∀ fields, r.jsonBody = some (Api.encodeErrorBody fields) →
      Api.flattenMessages fields = "" →
      Api.authFetch r = Api.FetchResult.rejectedError "An API error occurred.") := by
  constructor
  · intro v
    unfold Api.authFetch
    simp only [h]
    cases hb : r.jsonBody with
    | none => simp
    | some j =>
      cases hm : Api.errorMessage j <;> simp [hm]
  · intro fields hb hflat
    unfold Api.authFetch
    simp [h, hb, errorMessage_encode, hflat]

/-- Witness for C10: a 404 with the empty-object error body rejects
with the fallback message. -/
theorem authFetch_non2xx_always_rejects_witness :
    Api.authFetch ⟨404, some (Api.encodeErrorBody [])⟩
        = Api.FetchResult.rejectedError "An API error occurred." :=
  (authFetch_non2xx_always_rejects ⟨404, some (Api.encodeErrorBody [])⟩ rfl).2
    [] rfl rfl

/-- A deal group in which only the poll-consensus condition holds: the
active poll expired at instant 0 with all 10 of 10 votes cast, while
`price_agreement` and `quantity_confirmed` are both false (no target
price, no offer, no quantities). -/
def gPollExpiredOnly : Workflow.DealGroup :=
  { active_poll := some { total_votes := some 10, expires_at := some 0 }
  , members_count := some 10
  , target_price_per_kg := none
  , current_offer := none
  , total_quantity_kg := none
  , confirmed_quantity_kg := none
  , escrow_status := none
  , logistics_status := none
  , assigned_hub := none
  , collection_status := none
  , shipment_status := none
  , delivery_scheduled := none
  , receipt_status := none
  , payment_status := none }

/-- C3 counterexample: at time 1000, from `NEGOTIATING` with an expired
consensus poll but `price_agreement` and `quantity_confirmed` false,
one `analyzeCurrentStage` call still performs a `progressToNextStage`
step (via `check_poll_status` → `handlePollExpiry`), so a transition
occurs although not every listed condition evaluates to true. -/
theorem workflow_poll_expiry_counterexample :
    Workflow.analyzeStep 1000 Workflow.Stage.NEGOTIATING gPollExpiredOnly
        = Workflow.Stage.ACCEPTED ∧
    Workflow.checkStageConditions gPollExpiredOnly
        ["poll_consensus", "price_agreement", "quantity_confirmed"] = false ∧
    Workflow.evalCondition gPollExpiredOnly "price_agreement" = false := by
  have hcons : Workflow.checkPollConsensus gPollExpiredOnly = true := by
    show decide
        ((Workflow.jsOrNum (some 10) 0) / (Workflow.jsOrNum (some 10) 1)
          ≥ 75 / 100) = true
    rw [show Workflow.jsOrNum (some 10) 0 = (10 : ℚ) from by
          norm_num [Workflow.jsOrNum],
        show Workflow.jsOrNum (some 10) 1 = (10 : ℚ) from by
          norm_num [Workflow.jsOrNum],
        decide_eq_true_eq]
    norm_num
  have hprog : Workflow.checkPollStatusProgresses 1000 gPollExpiredOnly = true := by
    show (decide ((1000 : Int) > 0) && Workflow.checkPollConsensus gPollExpiredOnly)
        = true
    rw [hcons]
    rfl
  have hpa : Workflow.evalCondition gPollExpiredOnly "price_agreement" = false := rfl
  have hcsc : Workflow.checkStageConditions gPollExpiredOnly
      ["poll_consensus", "price_agreement", "quantity_confirmed"] = false := by
    unfold Workflow.checkStageConditions
    rw [if_neg (by simp)]
    simp only [List.map_cons, List.map_nil, List.all_cons, List.all_nil, hpa]
    simp
  have haap : Workflow.autoActionsProgress 1000 gPollExpiredOnly
      ["check_poll_status", "suggest_counter_offers", "market_analysis"] = true :=
    (autoActionsProgress_iff 1000 gPollExpiredOnly _).mpr ⟨by simp, hprog⟩
  refine ⟨?_, hcsc, hpa⟩
  rw [analyzeStep_eq 1000 gPollExpiredOnly Workflow.Stage.NEGOTIATING _ rfl]
  simp [hcsc, haap]

/-- C3 (amended): one stage-analysis step performs a transition only
when either every condition listed in the automation rules for the
current stage evaluates to true, or the stage's auto-actions include
`check_poll_status` and the active poll has expired with poll consensus
reached (the poll-expiry path, which fires even when the other
conditions are false); whenever a transition occurs it moves
`currentStage` exactly to the rule's next stage, the immediate
successor in the linear stage order, never skipping a stage; the
terminal `COMPLETED` stage has no rule and never transitions. -/
theorem workflow_stage_progression (now : Int) (st : Workflow.Stage)
    (g : Workflow.DealGroup) :
    (∀ r, Workflow.automationRules st = some r →
      (Workflow.checkStageConditions g r.conditions = true ↔
        ∀ c ∈ r.conditions, Workflow.evalCondition g c = true) ∧
      (Workflow.autoActionsProgress now g r.autoActions = true ↔
        "check_poll_status" ∈ r.autoActions ∧
        Workflow.checkPollStatusProgresses now g = true) ∧
      (Workflow.checkStageConditions g r.conditions = true →
        Workflow.analyzeStep now st g = r.nextStage) ∧
      (Workflow.analyzeStep now st g ≠ st →
        (Workflow.checkStageConditions g r.conditions = true ∨
          Workflow.autoActionsProgress now g r.autoActions = true) ∧
        Workflow.analyzeStep now st g = r.nextStage ∧
        Workflow.stageIdx r.nextStage = Workflow.stageIdx st + 1) ∧
      (Workflow.checkStageConditions g r.conditions = false →
        Workflow.autoActionsProgress now g r.autoActions = false →
        Workflow.analyzeStep now st g = st)) ∧
    (Workflow.automationRules Workflow.Stage.COMPLETED = none ∧
      Workflow.analyzeStep now Workflow.Stage.COMPLETED g
        = Workflow.Stage.COMPLETED) := by
  refine ⟨?_, rfl, rfl⟩
  intro r hr
  refine ⟨checkStageConditions_iff g _, autoActionsProgress_iff now g _, ?_, ?_, ?_⟩
  · intro hc
    rw [analyzeStep_eq now g st r hr]
    simp [hc]
  · intro hne
    rw [analyzeStep_eq now g st r hr] at hne ⊢
    cases hc : Workflow.checkStageConditions g r.conditions with
    | true => exact ⟨Or.inl rfl, by simp [hc], nextStage_succ st r hr⟩
    | false =>
      cases ha : Workflow.autoActionsProgress now g r.autoActions with
      | true => exact ⟨Or.inr rfl, by simp [hc, ha], nextStage_succ st r hr⟩
      | false => exact absurd (by simp [hc, ha]) hne
  · intro hc ha
    rw [analyzeStep_eq now g st r hr]
    simp [hc, ha]

/-- A deal group satisfying all three `ACCEPTED`-stage conditions. -/
def gAcceptedReady : Workflow.DealGroup :=
  { active_poll := none
  , members_count := none
  , target_price_per_kg := none
  , current_offer := none
  , total_quantity_kg := none
  , confirmed_quantity_kg := none
  , escrow_status := some "CONFIRMED"
  , logistics_status := some "READY"
  , assigned_hub := none
  , collection_status := some "CONFIRMED"
  , shipment_status := none
  , delivery_scheduled := none
  , receipt_status := none
  , payment_status := none }

/-- Witness for C3: from `ACCEPTED` at time 0, with escrow confirmed,
logistics ready and collection confirmed, one step moves to
`IN_TRANSIT`, the immediate successor. -/
theorem workflow_stage_progression_witness :
    Workflow.analyzeStep 0 Workflow.Stage.ACCEPTED gAcceptedReady
        = Workflow.Stage.IN_TRANSIT ∧
    Workflow.stageIdx Workflow.Stage.IN_TRANSIT
        = Workflow.stageIdx Workflow.Stage.ACCEPTED + 1 :=
  ⟨((workflow_stage_progression 0 Workflow.Stage.ACCEPTED gAcceptedReady).1
      _ rfl).2.2.1 (by decide),
   rfl⟩

/-- C2: the merged message list gives each chat entry the id
`chat_<id>` and each kept history entry the id `history_<id>`, so ids
from the two endpoints never collide; every element of the merged list
originates from one of the two inputs; the merged list is sorted in
non-decreasing timestamp order; and the sort comparator depends only on
the timestamps, so it imposes no tie-break for equal timestamps. -/
theorem groupRoom_merge_spec (chat : List GroupRoom.ChatMessage)
    (hist : List GroupRoom.HistoryMessage) :
    (∀ c : GroupRoom.ChatMessage,
      (GroupRoom.formatChatMessage c).id = "chat_" ++ toString c.id) ∧
    (∀ h : GroupRoom.HistoryMessage,
      (GroupRoom.formatHistoryMessage h).id = "history_" ++ toString h.id) ∧
    (∀ (c : GroupRoom.ChatMessage) (h : GroupRoom.HistoryMessage),
      (GroupRoom.formatChatMessage c).id ≠ (GroupRoom.formatHistoryMessage h).id) ∧
    (∀ m ∈ GroupRoom.fetchAllMerge chat hist,
      (∃ c ∈ chat, m = GroupRoom.formatChatMessage c) ∨
      (∃ h ∈ hist, GroupRoom.keepHistory h = true
        ∧ m = GroupRoom.formatHistoryMessage h)) ∧
    (GroupRoom.fetchAllMerge chat hist).Pairwise
      (fun a b => a.timestamp ≤ b.timestamp) ∧
    (∀ a b : GroupRoom.MergedMessage, a.timestamp = b.timestamp →
      GroupRoom.jsCompareMessages a b = 0 ∧ GroupRoom.jsCompareMessages b a = 0) := by
  refine ⟨fun c => rfl, fun h => rfl, fun c h => chat_id_ne_history_id _ _, ?_, ?_, ?_⟩
  · intro m hm
    unfold GroupRoom.fetchAllMerge at hm
    rw [List.mem_insertionSort] at hm
    rcases List.mem_append.mp hm with hc | hh
    · obtain ⟨c, hcmem, rfl⟩ := List.mem_map.mp hc
      exact Or.inl ⟨c, hcmem, rfl⟩
    · obtain ⟨h, hhmem, rfl⟩ := List.mem_map.mp hh
      obtain ⟨hmem, hkeep⟩ := List.mem_filter.mp hhmem
      exact Or.inr ⟨h, hmem, hkeep, rfl⟩
  · have hs := List.sorted_insertionSort GroupRoom.sortLe
      (chat.map GroupRoom.formatChatMessage
        ++ (hist.filter GroupRoom.keepHistory).map GroupRoom.formatHistoryMessage)
    exact List.Pairwise.imp
      (fun hab => by
        unfold GroupRoom.sortLe GroupRoom.jsCompareMessages at hab
        omega)
      hs
  · intro a b hab
    unfold GroupRoom.jsCompareMessages
    omega

/-- A concrete chat message for the C2 witness. -/
def chatSample : GroupRoom.ChatMessage :=
  { id := 7, content := "hello", sender_name := some "Ravi"
  , is_ai_agent := none, created_at := 1000 }

/-- A concrete history entry for the C2 witness, with the same backend
id and timestamp as `chatSample`. -/
def histSample : GroupRoom.HistoryMessage :=
  { id := 7, content := "offer", sender := "AI Agent"
  , is_ai_agent := none, timestamp := 1000, type := "poll" }

/-- Witness for C2: even with identical backend ids and timestamps, the
two formatted entries have distinct ids and the comparator returns 0. -/
theorem groupRoom_merge_spec_witness :
    (GroupRoom.formatChatMessage chatSample).id
        ≠ (GroupRoom.formatHistoryMessage histSample).id ∧
    GroupRoom.jsCompareMessages (GroupRoom.formatChatMessage chatSample)
        (GroupRoom.formatHistoryMessage histSample) = 0 :=
  ⟨(groupRoom_merge_spec [chatSample] [histSample]).2.2.1 chatSample histSample,
   ((groupRoom_merge_spec [chatSample] [histSample]).2.2.2.2.2
      (GroupRoom.formatChatMessage chatSample)
      (GroupRoom.formatHistoryMessage histSample) rfl).1⟩

end AgriUnity
